import Mathlib

/-!
Shallow embedding of the `func_processing` pipeline-orchestration code
(subject selection, Slurm submission wrappers, derivative-completeness
bookkeeping) together with theorems settling the specification claims.

Operating-system effects (spawned shells, `glob.glob`, `os.listdir`,
`os.path.exists`, file copies) are modelled by explicit oracles: a value
describing what the environment answers to each query.  Each Python
function is translated into a Lean function of its arguments and such an
oracle, returning its value together with a trace of the effects it
performed.
-/

namespace FuncProc

/-! ## String primitives mirroring the Python ones used by the code -/

/-- Last path component, Python `s.split("/")[-1]`. -/
def lastComponent (s : String) : String :=
  (s.splitOn "/").getLastD ""

/-- Python `a.startswith`-style character-list check used to implement
substring search. -/
def startsL : List Char → List Char → Bool
  | [], _ => true
  | _ :: _, [] => false
  | p :: ps, c :: cs => p == c && startsL ps cs

/-- Character-list substring search. -/
def hasSubL (pat : List Char) : List Char → Bool
  | [] => startsL pat []
  | c :: cs => startsL pat (c :: cs) || hasSubL pat cs

/-- Python's `pat in s` substring test on strings. -/
def strHas (s pat : String) : Bool :=
  hasSubL pat.toList s.toList

/-- `fnmatch.fnmatch` matching on the patterns this repository uses
(literal characters and `*`; the code never passes `?` or `[...]`).
Structural recursion on an explicit step bound so the kernel can
evaluate it; every recursive call shrinks `pattern.length + s.length`,
so a bound of `pattern.length + s.length + 1` is never exhausted. -/
def globMatchL : Nat → List Char → List Char → Bool
  | 0, _, _ => false
  | fuel + 1, pat, s =>
      match pat, s with
      | [], [] => true
      | [], _ :: _ => false
      | '*' :: ps, [] => globMatchL fuel ps []
      | '*' :: ps, c :: cs =>
          globMatchL fuel ps (c :: cs) || globMatchL fuel ('*' :: ps) cs
      | _ :: _, [] => false
      | p :: ps, c :: cs => p == c && globMatchL fuel ps cs

/-- `fnmatch.fnmatch name pat`. -/
def fnmatch (name pat : String) : Bool :=
  globMatchL (pat.length + name.length + 1) pat.toList name.toList

/-- Lexicographic comparison of character lists by code point, as Python
compares strings. -/
def leCharsL : List Char → List Char → Bool
  | [], _ => true
  | _ :: _, [] => false
  | a :: as, b :: bs =>
      if a.toNat < b.toNat then true
      else if b.toNat < a.toNat then false
      else leCharsL as bs

/-- Python `<=` on strings (code-point lexicographic). -/
def strLe (a b : String) : Bool :=
  leCharsL a.toList b.toList

/-- Ordered insert for the insertion sort modelling Python `sorted`. -/
def insertLe {α : Type} (le : α → α → Bool) (a : α) : List α → List α
  | [] => [a]
  | b :: bs => if le a b then a :: b :: bs else b :: insertLe le a bs

/-- Insertion sort modelling Python `sorted` / `list.sort()`. -/
def sortLe {α : Type} (le : α → α → Bool) : List α → List α
  | [] => []
  | a :: as => insertLe le a (sortLe le as)

theorem mem_insertLe {α : Type} (le : α → α → Bool) (a x : α) :
    ∀ l : List α, x ∈ insertLe le a l ↔ x = a ∨ x ∈ l := by
  intro l
  induction l with
  | nil => simp [insertLe]
  | cons b bs ih =>
      by_cases h : le a b = true
      · simp [insertLe, h]
      · simp only [insertLe, h]
        simp only [Bool.false_eq_true, if_false, List.mem_cons, ih]
        tauto

theorem mem_sortLe {α : Type} (le : α → α → Bool) (x : α) :
    ∀ l : List α, x ∈ sortLe le l ↔ x ∈ l := by
  intro l
  induction l with
  | nil => simp [sortLe]
  | cons a as ih =>
      simp [sortLe, mem_insertLe, ih]

/-! ## Subprocess model

`subprocess.Popen(cmd, shell=True, stdout=subprocess.PIPE)` spawns a
shell.  The oracle `popen : String → ProcResult` records what that child
writes on each of its two streams. -/

instance exceptDecEq {ε α : Type} [DecidableEq ε] [DecidableEq α] :
    DecidableEq (Except ε α)
  | .error a, .error b =>
      if h : a = b then .isTrue (by rw [h])
      else .isFalse (fun hc => h (Except.error.inj hc))
  | .error _, .ok _ => .isFalse (fun hc => Except.noConfusion hc)
  | .ok _, .error _ => .isFalse (fun hc => Except.noConfusion hc)
  | .ok a, .ok b =>
      if h : a = b then .isTrue (by rw [h])
      else .isFalse (fun hc => h (Except.ok.inj hc))

/-- What a spawned child process writes to stdout and stderr. -/
structure ProcResult where
  out : String
  err : String
deriving Repr, DecidableEq

/-- `Popen(cmd, shell=True, stdout=PIPE).communicate()`: stdout is
captured through the pipe; stderr is not redirected, so `communicate`
returns `None` in the second slot. -/
def communicateStdoutPiped (popen : String → ProcResult) (cmd : String) :
    Option String × Option String :=
  (some (popen cmd).out, none)

/-- `submit_hpc_subprocess` (identical in
`resources/afni/submit_jobs.py` and
`func_processing/resources/afni/submit.py`): prepend the module loads,
run the command with only stdout piped, return `(job_out, job_err)`. -/
def submit_hpc_subprocess (popen : String → ProcResult) (bash_command : String) :
    Option String × Option String :=
  let h_cmd :=
    "\n        module load afni-20.2.06\n        module load c3d-1.0.0-gcc-8.2.0\n        "
      ++ bash_command ++ "\n    "
  communicateStdoutPiped popen h_cmd

/-- C10: for every input command, `submit_hpc_subprocess` returns a pair
whose second element (`job_err`) is always `None`: the child is opened
with only stdout piped, so its stderr is never captured. -/
theorem submit_hpc_subprocess_err_none (popen : String → ProcResult)
    (bash_command : String) :
    (submit_hpc_subprocess popen bash_command).2 = none := rfl

/-! ## `submit_hpc_sbatch`, `resources/afni/submit_jobs.py` variant

After the sbatch submission the function enters
`while continue_status:`: it runs `squeue -u $(whoami)`, decodes the
output, stops when `job_name not in b_decode`, and otherwise sleeps 3
seconds and repeats.  `squeue k` is the output of the `k`-th squeue
invocation; `fuel` bounds how many loop iterations we model (the Python
loop has no bound and simply never returns if the name never leaves the
queue). -/

/-- One observable event of the polling loop: a squeue check (with the
output it read), or a `time.sleep`. -/
inductive PollEv where
  | check (output : String)
  | sleep (secs : Nat)
deriving Repr, DecidableEq

/-- The squeue outputs read by a poll trace, in order. -/
def checksOf (t : List PollEv) : List String :=
  t.filterMap fun e => match e with | .check o => some o | .sleep _ => none

/-- The sleep durations of a poll trace, in order. -/
def sleepsOf (t : List PollEv) : List Nat :=
  t.filterMap fun e => match e with | .check _ => none | .sleep s => some s

/-- The polling loop of `submit_hpc_sbatch` in
`resources/afni/submit_jobs.py`: check `squeue k`; if `job_name` still
occurs, sleep 3 seconds and continue with check `k+1`; otherwise stop.
Returns the trace of checks and sleeps, or `none` when `fuel` runs out
(the job stayed in the queue throughout the modelled window). -/
def pollEvents (job_name : String) (squeue : Nat → String) :
    Nat → Nat → Option (List PollEv)
  | 0, _ => none
  | fuel + 1, k =>
      if strHas (squeue k) job_name then
        (pollEvents job_name squeue fuel (k + 1)).map
          (fun t => PollEv.check (squeue k) :: PollEv.sleep 3 :: t)
      else some [PollEv.check (squeue k)]

/-- Run of the `submit_jobs.py` `submit_hpc_sbatch`: the constructed
sbatch command, the job id read from its stdout, and the squeue polling
trace performed before returning. -/
structure SbatchV1Run where
  sbatch_job : String
  job_id : String
  events : Option (List PollEv)
deriving Repr

/-- `submit_hpc_sbatch` of `resources/afni/submit_jobs.py`.  The f-string
is rendered with Python's backslash-newline continuations collapsed to
single spaces.  After submitting, the function polls
`squeue -u $(whoami)` until `job_name` is absent. -/
def submit_hpc_sbatch_v1 (popen : String → ProcResult) (squeue : Nat → String)
    (fuel : Nat) (command : String) (wall_hours mem_gig num_proc : Nat)
    (job_name out_dir : String) : SbatchV1Run :=
  let sbatch_job :=
    "\n        sbatch -J " ++ job_name ++ " -t " ++ toString wall_hours
      ++ ":00:00 --mem=" ++ toString mem_gig ++ "000 --ntasks-per-node="
      ++ toString num_proc ++ " -p IB_44C_512G -o " ++ out_dir ++ "/sbatch_"
      ++ job_name ++ ".out -e " ++ out_dir ++ "/sbatch_" ++ job_name
      ++ ".err --account iacc_madlab --qos pq_madlab --wrap=\"module load afni-20.2.06\n            "
      ++ command ++ "\n        \"\n    "
  let job_id := (popen sbatch_job).out
  { sbatch_job := sbatch_job
    job_id := job_id
    events := pollEvents job_name squeue fuel 0 }

/-- Run of the `func_processing/resources/afni/submit.py`
`submit_hpc_sbatch`: the constructed sbatch command, every command handed
to `subprocess.Popen` (in order), the directories created, and the
returned `(job_name, job_id)` pair. -/
structure SbatchV2Run where
  sbatch_job : String
  spawned : List String
  madeDirs : List String
  ret : String × String
deriving Repr

/-- `submit_hpc_sbatch` of `func_processing/resources/afni/submit.py`:
builds the sbatch command (note the `--wait` flag), creates `out_dir` if
missing, spawns the single sbatch child with stdout piped, and returns
`(job_name, job_id)` immediately after `communicate()` — there is no
squeue loop in this variant. -/
def submit_hpc_sbatch_v2 (popen : String → ProcResult)
    (dirExists : String → Bool) (command : String)
    (wall_hours mem_gig num_proc : Nat) (job_name out_dir : String) :
    SbatchV2Run :=
  let sbatch_job :=
    "\n        sbatch -J " ++ job_name ++ " -t " ++ toString wall_hours
      ++ ":00:00 --cpus-per-task=" ++ toString num_proc ++ " --mem-per-cpu="
      ++ toString mem_gig ++ "000 -p IB_44C_512G -o " ++ out_dir ++ "/"
      ++ job_name ++ ".out -e " ++ out_dir ++ "/" ++ job_name
      ++ ".err --account iacc_madlab --qos pq_madlab --wait --wrap=\"module load afni-20.2.06\n            module load c3d-1.0.0-gcc-8.2.0\n            "
      ++ command ++ "\n        \"\n    "
  { sbatch_job := sbatch_job
    spawned := [sbatch_job]
    madeDirs := if dirExists out_dir then [] else [out_dir]
    ret := (job_name, (popen sbatch_job).out) }

theorem hasSubL_nil_pat : ∀ t : List Char, hasSubL [] t = true := by
  intro t
  cases t <;> simp [hasSubL, startsL]

theorem startsL_append_ext :
    ∀ (pat u v : List Char), startsL pat u = true → startsL pat (u ++ v) = true := by
  intro pat
  induction pat with
  | nil => intro u v _; simp [startsL]
  | cons p ps ih =>
      intro u v h
      cases u with
      | nil => simp [startsL] at h
      | cons c cs =>
          simp only [startsL, Bool.and_eq_true] at h
          simp only [List.cons_append, startsL, Bool.and_eq_true]
          exact ⟨h.1, ih cs v h.2⟩

theorem hasSubL_append_right (pat : List Char) :
    ∀ (s t : List Char), hasSubL pat s = true → hasSubL pat (s ++ t) = true := by
  intro s
  induction s with
  | nil =>
      intro t h
      cases pat with
      | nil => exact hasSubL_nil_pat t
      | cons p ps => simp [hasSubL, startsL] at h
  | cons c cs ih =>
      intro t h
      simp only [hasSubL, Bool.or_eq_true] at h
      rcases h with h | h
      · have := startsL_append_ext pat (c :: cs) t h
        simp only [List.cons_append] at this ⊢
        simp [hasSubL, this]
      · simp only [List.cons_append, hasSubL, Bool.or_eq_true]
        exact Or.inr (ih t h)

theorem hasSubL_append_left (pat : List Char) :
    ∀ (t s : List Char), hasSubL pat s = true → hasSubL pat (t ++ s) = true := by
  intro t
  induction t with
  | nil => intro s h; simpa using h
  | cons c cs ih =>
      intro s h
      simp only [List.cons_append, hasSubL, Bool.or_eq_true]
      exact Or.inr (ih s h)

/-- A spawned shell command that is a squeue invocation: its text begins
with `squeue` (the polling variant spawns `"squeue -u $(whoami)"`). -/
def isSqueueText (c : String) : Bool :=
  startsL "squeue".toList c.toList

theorem toList_append (s t : String) : (s ++ t).toList = s.toList ++ t.toList := rfl

theorem startsL_head_ne {p c : Char} (ps cs : List Char) (h : (p == c) = false) :
    startsL (p :: ps) (c :: cs) = false := by
  simp [startsL, h]

theorem toList_sbatch_lit :
    ("\n        sbatch -J " : String).toList = '\n' :: "        sbatch -J ".toList := by
  decide

theorem toList_squeue_word :
    ("squeue" : String).toList = 's' :: "queue".toList := by
  decide

theorem checksOf_check (o : String) (t : List PollEv) :
    checksOf (.check o :: t) = o :: checksOf t := rfl

theorem checksOf_sleep (s : Nat) (t : List PollEv) :
    checksOf (.sleep s :: t) = checksOf t := rfl

theorem sleepsOf_check (o : String) (t : List PollEv) :
    sleepsOf (.check o :: t) = sleepsOf t := rfl

theorem sleepsOf_sleep (s : Nat) (t : List PollEv) :
    sleepsOf (.sleep s :: t) = s :: sleepsOf t := rfl

theorem pollEvents_spec (job_name : String) (squeue : Nat → String) :
    ∀ fuel k0 t, pollEvents job_name squeue fuel k0 = some t →
      ∃ k, k0 ≤ k ∧
        strHas (squeue k) job_name = false ∧
        (∀ j, k0 ≤ j → j < k → strHas (squeue j) job_name = true) ∧
        checksOf t = (List.range' k0 (k - k0 + 1)).map squeue ∧
        sleepsOf t = List.replicate (k - k0) 3 := by
  intro fuel
  induction fuel with
  | zero => intro k0 t h; simp [pollEvents] at h
  | succ n ih =>
      intro k0 t h
      by_cases hc : strHas (squeue k0) job_name = true
      · simp only [pollEvents, hc, if_true, Option.map_eq_some'] at h
        obtain ⟨t', ht', rfl⟩ := h
        obtain ⟨k, hk0, habs, hpre, hch, hsl⟩ := ih (k0 + 1) t' ht'
        refine ⟨k, by omega, habs, ?_, ?_, ?_⟩
        · intro j hj1 hj2
          rcases Nat.eq_or_lt_of_le hj1 with h' | h'
          · exact h' ▸ hc
          · exact hpre j h' hj2
        · have hkk : k - k0 + 1 = (k - (k0 + 1) + 1) + 1 := by omega
          rw [hkk, List.range'_succ]
          simp [checksOf_check, checksOf_sleep, hch]
        · have hkk : k - k0 = (k - (k0 + 1)) + 1 := by omega
          rw [hkk, List.replicate_succ]
          simp [sleepsOf_check, sleepsOf_sleep, hsl]
      · simp only [Bool.not_eq_true] at hc
        simp only [pollEvents, hc, Bool.false_eq_true, if_false,
          Option.some.injEq] at h
        refine ⟨k0, le_rfl, hc, by omega, ?_, ?_⟩
        · simp [← h, checksOf, List.range'_succ]
        · simp [← h, sleepsOf]

/-- C1 (amended): the `submit_jobs.py` variant of `submit_hpc_sbatch`
returns only after a squeue check whose output no longer contains
`job_name` — every earlier check contained it and was followed by a
3-second sleep — while the `func_processing/resources/afni/submit.py`
variant passes `--wait` to sbatch and performs no squeue polling at all:
its only spawned child is the sbatch submission itself. -/
theorem submit_hpc_sbatch_wait_behaviour :
    (∀ (popen : String → ProcResult) (squeue : Nat → String) (fuel : Nat)
        (command : String) (wall_hours mem_gig num_proc : Nat)
        (job_name out_dir : String) (t : List PollEv),
      (submit_hpc_sbatch_v1 popen squeue fuel command wall_hours mem_gig
          num_proc job_name out_dir).events = some t →
      ∃ k, strHas (squeue k) job_name = false ∧
        (∀ j < k, strHas (squeue j) job_name = true) ∧
        checksOf t = (List.range' 0 (k + 1)).map squeue ∧
        sleepsOf t = List.replicate k 3)
    ∧ (∀ (popen : String → ProcResult) (dirExists : String → Bool)
        (command : String) (wall_hours mem_gig num_proc : Nat)
        (job_name out_dir : String),
      strHas (submit_hpc_sbatch_v2 popen dirExists command wall_hours
          mem_gig num_proc job_name out_dir).sbatch_job "--wait" = true
      ∧ (submit_hpc_sbatch_v2 popen dirExists command wall_hours mem_gig
          num_proc job_name out_dir).spawned.countP isSqueueText = 0) := by
  constructor
  · intro popen squeue fuel command wall_hours mem_gig num_proc job_name
      out_dir t h
    have h' : pollEvents job_name squeue fuel 0 = some t := h
    obtain ⟨k, _, habs, hpre, hch, hsl⟩ :=
      pollEvents_spec job_name squeue fuel 0 t h'
    exact ⟨k, habs, fun j hj => hpre j (Nat.zero_le j) hj, by simpa using hch,
      by simpa using hsl⟩
  · intro popen dirExists command wall_hours mem_gig num_proc job_name out_dir
    constructor
    · show strHas _ "--wait" = true
      simp only [submit_hpc_sbatch_v2, strHas, toList_append]
      apply hasSubL_append_right
      apply hasSubL_append_right
      apply hasSubL_append_left
      decide
    · have h0 : isSqueueText
          (submit_hpc_sbatch_v2 popen dirExists command wall_hours mem_gig
            num_proc job_name out_dir).sbatch_job = false := by
        simp only [submit_hpc_sbatch_v2, isSqueueText, toList_append]
        rw [toList_sbatch_lit, toList_squeue_word]
        simp only [List.cons_append]
        exact startsL_head_ne _ _ (by decide)
      simp only [submit_hpc_sbatch_v2] at h0 ⊢
      simp [List.countP_cons, h0]

/-- C1 counterexample: a concrete call to the
`func_processing/resources/afni/submit.py` variant of
`submit_hpc_sbatch` spawns exactly one child — the sbatch submission —
and performs zero squeue checks before returning, contradicting the
claim that every call re-checks squeue until `job_name` disappears. -/
theorem submit_hpc_sbatch_v2_never_polls :
    ¬ 1 ≤ ((submit_hpc_sbatch_v2 (fun _ => ⟨"Submitted batch job 77\n", ""⟩)
        (fun _ => true) "afni -ver" 1 1 1 "TEST7" "/slurm_out").spawned.countP
          isSqueueText) := by
  decide

/-- Concrete squeue oracle for the C1 witness: the job shows up in the
first check and is gone in the second. -/
def witSqueue : Nat → String :=
  fun k => if k = 0 then "JOBID myjob77" else "JOBID"

/-- Witness for `submit_hpc_sbatch_wait_behaviour`: instantiating the
polling conjunct at a concrete run whose trace is
check / sleep 3 / check. -/
theorem submit_hpc_sbatch_wait_behaviour_witness :
    ∃ k, strHas (witSqueue k) "myjob77" = false ∧
      (∀ j < k, strHas (witSqueue j) "myjob77" = true) ∧
      checksOf [PollEv.check "JOBID myjob77", PollEv.sleep 3,
          PollEv.check "JOBID"] =
        (List.range' 0 (k + 1)).map witSqueue ∧
      sleepsOf [PollEv.check "JOBID myjob77", PollEv.sleep 3,
          PollEv.check "JOBID"] = List.replicate k 3 :=
  submit_hpc_sbatch_wait_behaviour.1 (fun _ => ⟨"Submitted batch job 9\n", ""⟩)
    witSqueue 3 "3dinfo" 1 1 1 "myjob77" "/out"
    [PollEv.check "JOBID myjob77", PollEv.sleep 3, PollEv.check "JOBID"]
    (by decide)

/-! ## `submit_jobs` of `cli/run_afni.py`

Writes the per-subject driver script `preproc_decon_<subj_num>.py` into
`slurm_dir`, submits it with `sbatch` through `subprocess.Popen` with
only stdout piped, and returns the pair produced by `communicate()`. -/

/-- Arguments of `submit_jobs` (`cli/run_afni.py`).  `sys_executable` is
the interpreter path Python splices into the shebang;
`decon_plan_repr` is the textual rendering Python produces when the
`decon_plan` dict (or `None`) is spliced into the f-string. -/
structure SubmitJobsArgs where
  prep_dir : String
  dset_dir : String
  afni_dir : String
  afni_final : String
  subj : String
  sess : String
  task : String
  code_dir : String
  slurm_dir : String
  tplflow_str : String
  dur : String
  decon_plan_repr : String
  sys_executable : String
deriving Repr

/-- `subj.split("-")[-1]` of `cli/run_afni.py`. -/
def subjNum (subj : String) : String :=
  (subj.splitOn "-").getLastD ""

/-- The lines of the generated driver script, i.e. `h_cmd` of
`submit_jobs` after `textwrap.dedent`. -/
def scriptLines (a : SubmitJobsArgs) : List String :=
  [ "#!/bin/env " ++ a.sys_executable,
    "",
    "#SBATCH --job-name=p" ++ subjNum a.subj,
    "#SBATCH --output=" ++ a.slurm_dir ++ "/out_" ++ subjNum a.subj ++ ".txt",
    "#SBATCH --time=10:00:00",
    "#SBATCH --mem=4000",
    "#SBATCH --partition=IB_44C_512G",
    "#SBATCH --account=iacc_madlab",
    "#SBATCH --qos=pq_madlab",
    "",
    "import sys",
    "import shutil",
    "import glob",
    "sys.path.append(\"" ++ a.code_dir ++ "\")",
    "from workflow import control_afni",
    "",
    "afni_data = control_afni.control_preproc(",
    "    \"" ++ a.prep_dir ++ "\",",
    "    \"" ++ a.afni_dir ++ "\",",
    "    \"" ++ a.subj ++ "\",",
    "    \"" ++ a.sess ++ "\",",
    "    \"" ++ a.task ++ "\",",
    "    \"" ++ a.tplflow_str ++ "\",",
    ")",
    "",
    "afni_data = control_afni.control_deconvolution(",
    "    afni_data,",
    "    \"" ++ a.afni_dir ++ "\",",
    "    \"" ++ a.dset_dir ++ "\",",
    "    \"" ++ a.subj ++ "\",",
    "    \"" ++ a.sess ++ "\",",
    "    \"" ++ a.task ++ "\",",
    "    \"" ++ a.dur ++ "\",",
    "    " ++ a.decon_plan_repr ++ ",",
    ")",
    "print(f\"Finished {subj} {sess} {task} with: \\n {afni_data}\")",
    "",
    "# clean up",
    "shutil.rmtree(os.path.join(\"" ++ a.afni_dir ++ "\", \"sbatch_out\"))",
    "clean_dir = os.path.join(\"" ++ a.afni_dir ++ "\", \"" ++ a.subj
      ++ "\", \"" ++ a.sess ++ "\", \"func\")",
    "clean_list = [\"preproc\", \"smoothed\"]",
    "for c_str in clean_list:",
    "    for h_file in glob.glob(f\"{clean_dir}/*{c_str}_bold.nii.gz\"):",
    "        os.remove(h_file)",
    "",
    "# copy important files to /home/data",
    "src = os.path.join(\"" ++ a.afni_dir ++ "\", \"" ++ a.subj ++ "\")",
    "dst = os.path.join(\"" ++ a.afni_final ++ "\", \"" ++ a.subj ++ "\")",
    "shutil.copytree(src, dst)",
    "" ]

/-- Run of `submit_jobs`: the dedented script, the path it is written
to, the sbatch command, the file writes performed, and the returned
`(h_out, h_err)` pair. -/
structure SubmitJobsRun where
  script : List String
  py_script : String
  sbatch_cmd : String
  writes : List (String × List String)
  ret : Option String × Option String
deriving Repr

/-- `submit_jobs` of `cli/run_afni.py`: dedent the driver script, write
it to `slurm_dir/preproc_decon_<subj_num>.py`, spawn
`sbatch <py_script>` with stdout piped, and return `communicate()`. -/
def submit_jobs (popen : String → ProcResult) (a : SubmitJobsArgs) :
    SubmitJobsRun :=
  let py_script := a.slurm_dir ++ "/" ++ ("preproc_decon_" ++ subjNum a.subj ++ ".py")
  let cmd := "sbatch " ++ py_script
  { script := scriptLines a
    py_script := py_script
    sbatch_cmd := cmd
    writes := [(py_script, scriptLines a)]
    ret := communicateStdoutPiped popen cmd }

/-- C3 (amended): `submit_jobs` writes the driver script named
`preproc_decon_<subj_num>.py` into `slurm_dir`; the script body calls
`control_afni.control_preproc` (line 16) before
`control_afni.control_deconvolution` (line 25); the script is submitted
with `sbatch <script>` via `subprocess.Popen`; and the returned pair is
the submission's stdout together with `None` — stderr is not captured
because only stdout is piped. -/
theorem submit_jobs_spec (popen : String → ProcResult) (a : SubmitJobsArgs) :
    (submit_jobs popen a).py_script
        = a.slurm_dir ++ "/" ++ ("preproc_decon_" ++ subjNum a.subj ++ ".py")
    ∧ (submit_jobs popen a).writes
        = [((submit_jobs popen a).py_script, (submit_jobs popen a).script)]
    ∧ (submit_jobs popen a).script.get? 16
        = some "afni_data = control_afni.control_preproc("
    ∧ (submit_jobs popen a).script.get? 25
        = some "afni_data = control_afni.control_deconvolution("
    ∧ (submit_jobs popen a).sbatch_cmd = "sbatch " ++ (submit_jobs popen a).py_script
    ∧ (submit_jobs popen a).ret
        = (some (popen (submit_jobs popen a).sbatch_cmd).out, none) :=
  ⟨rfl, rfl, rfl, rfl, rfl, rfl⟩

/-- Concrete process oracle for the C3 counterexample: sbatch writes a
non-empty diagnostic on stderr. -/
def c3popen : String → ProcResult :=
  fun _ => ⟨"Submitted batch job 42\n", "sbatch: error: invalid partition\n"⟩

/-- Concrete arguments for the C3 counterexample. -/
def c3args : SubmitJobsArgs :=
  ⟨"/proj/derivatives/fmriprep", "/proj/dset", "/scratch/afni",
    "/proj/derivatives/afni", "sub-4001", "ses-S1", "task-test",
    "/code", "/scratch/afni/slurm_out", "space-T", "2", "None",
    "/usr/bin/python"⟩

/-- C3 counterexample: at a concrete call whose sbatch child writes
`"sbatch: error: invalid partition\n"` on stderr, `submit_jobs` does not
return that stderr — the second element of its return value is `None`,
refuting the claim that it returns the submission's stdout and stderr. -/
theorem submit_jobs_stderr_not_returned :
    (c3popen (submit_jobs c3popen c3args).sbatch_cmd).err
        = "sbatch: error: invalid partition\n"
    ∧ ¬ ((submit_jobs c3popen c3args).ret.2
        = some ((c3popen (submit_jobs c3popen c3args).sbatch_cmd).err)) := by
  refine ⟨rfl, ?_⟩
  intro h
  simp [submit_jobs, communicateStdoutPiped] at h

/-! ## Subject selection in `main` of `cli/run_afni.py`

One pass of the work-queue construction (lines 328–389): list `sub-*`
entries of `derivatives/fmriprep` (excluding `*html`), sort them, and for
each one glob for fMRIprep anat/func output and test the planned
deconvolution files, threading the `decon_plan` variable through the
loop.  The submission loop (lines 405–420) then reuses whatever value
that variable holds after the selection loop. -/

/-- A deconvolution plan as loaded from a subject's JSON: association
list from decon name (`decon_str`) to its behavior/timing payload. -/
abbrev DeconPlan := List (String × String)

/-- Filesystem/JSON oracle for `run_afni.main`: what `os.listdir`,
`glob.glob(..., recursive=True)`, `os.path.exists` and `json.load`
answer. -/
structure AfniEnv where
  listdir : String → List String
  glob : String → List String
  pexists : String → Bool
  loadJson : String → DeconPlan

/-- The arguments of `run_afni.main` relevant to selection/submission. -/
structure RunAfniArgs where
  proj_dir : String
  batch_num : Nat
  tplflow_str : String
  dur : String
  afni_dir : String
  json_dir : Option String
  sess : String
  task : String
  code_dir : String
deriving Repr

/-- `prep_dir = os.path.join(proj_dir, "derivatives/fmriprep")`. -/
def prepDir (a : RunAfniArgs) : String :=
  a.proj_dir ++ "/" ++ "derivatives/fmriprep"

/-- `afni_final = os.path.join(proj_dir, "derivatives/afni")`. -/
def afniFinal (a : RunAfniArgs) : String :=
  a.proj_dir ++ "/" ++ "derivatives/afni"

/-- `subj_list_all`: the `sub-*` entries of `prep_dir` that are not
`*html`, sorted. -/
def subjListAll (env : AfniEnv) (a : RunAfniArgs) : List String :=
  sortLe strLe ((env.listdir (prepDir a)).filter
    (fun x => fnmatch x "sub-*" && ! fnmatch x "*html"))

/-- `anat_check`: recursive glob for the template-space preprocessed T1w
under the subject's fMRIprep output. -/
def anatCheck (env : AfniEnv) (a : RunAfniArgs) (subj : String) : List String :=
  env.glob (prepDir a ++ "/" ++ subj ++ "/**/*_" ++ a.tplflow_str
    ++ "_desc-preproc_T1w.nii.gz")

/-- `func_check`: recursive glob for the task preprocessed bold under the
subject's fMRIprep output. -/
def funcCheck (env : AfniEnv) (a : RunAfniArgs) (subj : String) : List String :=
  env.glob (prepDir a ++ "/" ++ subj ++ "/**/*" ++ a.task ++ "*"
    ++ a.tplflow_str ++ "_desc-preproc_bold.nii.gz")

/-- The planned deconvolution output file
`<afni_final>/<subj>/<sess>/func/decon_<task>_<decon_str>_stats_REML+tlrc.HEAD`. -/
def deconFile (a : RunAfniArgs) (subj decon_str : String) : String :=
  afniFinal a ++ "/" ++ subj ++ "/" ++ a.sess ++ "/" ++ "func" ++ "/"
    ++ ("decon_" ++ a.task ++ "_" ++ decon_str ++ "_stats_REML+tlrc.HEAD")

/-- The per-subject body of the selection loop: glob checks, the JSON
branch (with Python's `assert decon_glob` modelled as an error), and the
resulting `(added-to-subj_list, decon_plan-variable-value)` pair. -/
def checkSubj (env : AfniEnv) (a : RunAfniArgs) (subj : String) :
    Except String (Bool × Option DeconPlan) :=
  let anat_check := anatCheck env a subj
  let func_check := funcCheck env a subj
  match a.json_dir with
  | some json_dir =>
      match env.glob (json_dir ++ "/" ++ (subj ++ "*.json")) with
      | [] => .error ("No JSON found for " ++ subj ++ " in " ++ json_dir ++ ".")
      | jf :: _ =>
          let decon_plan := env.loadJson jf
          let afni_check := decon_plan.map
            (fun kv => env.pexists (deconFile a subj kv.1))
          .ok (!anat_check.isEmpty && !func_check.isEmpty
                && afni_check.contains false, some decon_plan)
  | none =>
      let afni_check := [env.pexists (deconFile a subj "UniqueBehs")]
      .ok (!anat_check.isEmpty && !func_check.isEmpty
            && afni_check.contains false, none)

/-- The selection loop over `subj_list_all`, threading the Python locals
`subj_list` and `decon_plan` (the latter is reassigned on every
iteration, in both branches). -/
def selectLoop (env : AfniEnv) (a : RunAfniArgs) :
    List String → List String × Option DeconPlan →
    Except String (List String × Option DeconPlan)
  | [], st => .ok st
  | subj :: rest, (subj_list, _) =>
      match checkSubj env a subj with
      | .error e => .error e
      | .ok (added, decon_plan) =>
          selectLoop env a rest
            (if added then subj_list ++ [subj] else subj_list, decon_plan)

/-- The selection phase of `run_afni.main`: returns `subj_list` and the
final value of the `decon_plan` variable. -/
def selectSubjects (env : AfniEnv) (a : RunAfniArgs) :
    Except String (List String × Option DeconPlan) :=
  selectLoop env a (subjListAll env a) ([], none)

/-- The submission loop of `run_afni.main`: every subject of
`subj_list[:batch_num]` is submitted with the single leftover
`decon_plan` value. -/
def submissions (env : AfniEnv) (a : RunAfniArgs) :
    Except String (List (String × Option DeconPlan)) :=
  match selectSubjects env a with
  | .error e => .error e
  | .ok (subj_list, decon_plan) =>
      .ok ((subj_list.take a.batch_num).map (fun subj => (subj, decon_plan)))

/-- Specification-side description of the planned deconvolution names of
a subject: the keys of its loaded JSON plan when `--json-dir` is given
(if a JSON is found), else the single default name `UniqueBehs`. -/
def plannedDeconNames (env : AfniEnv) (a : RunAfniArgs) (subj : String) :
    Option (List String) :=
  match a.json_dir with
  | some json_dir =>
      ((env.glob (json_dir ++ "/" ++ (subj ++ "*.json"))).head?).map
        (fun jf => (env.loadJson jf).map Prod.fst)
  | none => some ["UniqueBehs"]

theorem selectLoop_mem (env : AfniEnv) (a : RunAfniArgs) :
    ∀ (l acc : List String) (dp : Option DeconPlan) (res : List String)
      (dpf : Option DeconPlan),
      selectLoop env a l (acc, dp) = .ok (res, dpf) →
      ∀ x, x ∈ res ↔ x ∈ acc ∨ (x ∈ l ∧ ∃ p, checkSubj env a x = .ok (true, p)) := by
  intro l
  induction l with
  | nil =>
      intro acc dp res dpf h x
      simp only [selectLoop, Except.ok.injEq, Prod.mk.injEq] at h
      simp [← h.1]
  | cons s rest ih =>
      intro acc dp res dpf h x
      simp only [selectLoop] at h
      cases hcs : checkSubj env a s with
      | error e => rw [hcs] at h; exact absurd h (by simp)
      | ok pr =>
          obtain ⟨added, pl⟩ := pr
          rw [hcs] at h
          have h2 : selectLoop env a rest
              ((if added = true then acc ++ [s] else acc), pl)
                = .ok (res, dpf) := h
          by_cases hadd : added = true
          · rw [if_pos hadd] at h2
            subst hadd
            have hx := ih _ _ _ _ h2 x
            rw [hx]
            have hkey : x = s → ∃ p, checkSubj env a x = .ok (true, p) :=
              fun hxs => ⟨pl, by rw [hxs]; exact hcs⟩
            simp only [List.mem_append, List.mem_cons, List.not_mem_nil,
              or_false]
            constructor
            · rintro ((h1 | h1) | ⟨h2, hp⟩)
              · exact Or.inl h1
              · exact Or.inr ⟨Or.inl h1, hkey h1⟩
              · exact Or.inr ⟨Or.inr h2, hp⟩
            · rintro (h1 | ⟨h2 | h2, hp⟩)
              · exact Or.inl (Or.inl h1)
              · exact Or.inl (Or.inr h2)
              · exact Or.inr ⟨h2, hp⟩
          · rw [if_neg hadd] at h2
            have hfalse : added = false := by
              cases added
              · rfl
              · exact absurd rfl hadd
            subst hfalse
            have hx := ih _ _ _ _ h2 x
            rw [hx]
            simp only [List.mem_cons]
            constructor
            · rintro (h1 | ⟨h2, hp⟩)
              · exact Or.inl h1
              · exact Or.inr ⟨Or.inr h2, hp⟩
            · rintro (h1 | ⟨h2 | h2, hp⟩)
              · exact Or.inl h1
              · exfalso
                obtain ⟨p, hp⟩ := hp
                rw [h2, hcs] at hp
                simp at hp
              · exact Or.inr ⟨h2, hp⟩

theorem contains_false_iff (l : List Bool) :
    l.contains false = true ↔ false ∈ l := by
  induction l with
  | nil => simp
  | cons b bs ih =>
      cases b
      · simp [List.contains, List.elem]
      · simp only [List.contains, List.elem] at ih ⊢
        simp [ih]

theorem isEmpty_false_iff {α : Type} (l : List α) :
    l.isEmpty = false ↔ l ≠ [] := by
  cases l <;> simp

theorem checkSubj_true_iff (env : AfniEnv) (a : RunAfniArgs) (subj : String) :
    (∃ p, checkSubj env a subj = .ok (true, p)) ↔
      (anatCheck env a subj ≠ [] ∧ funcCheck env a subj ≠ [] ∧
       ∃ names, plannedDeconNames env a subj = some names ∧
         ∃ n ∈ names, env.pexists (deconFile a subj n) = false) := by
  cases hjd : a.json_dir with
  | none =>
      simp only [checkSubj, plannedDeconNames, hjd]
      constructor
      · rintro ⟨p, hp⟩
        simp only [Except.ok.injEq, Prod.mk.injEq] at hp
        obtain ⟨hcond, -⟩ := hp
        simp only [Bool.and_eq_true, Bool.not_eq_true'] at hcond
        obtain ⟨⟨ha, hf⟩, hcont⟩ := hcond
        rw [contains_false_iff, List.mem_singleton] at hcont
        exact ⟨(isEmpty_false_iff _).mp ha, (isEmpty_false_iff _).mp hf,
          ["UniqueBehs"], rfl, "UniqueBehs", List.mem_singleton_self _,
          hcont.symm⟩
      · rintro ⟨ha, hf, names, hnames, n, hn, hb⟩
        obtain rfl : ["UniqueBehs"] = names := by
          simpa using hnames
        obtain rfl : n = "UniqueBehs" := by simpa using hn
        refine ⟨none, ?_⟩
        simp only [Except.ok.injEq, Prod.mk.injEq]
        refine ⟨?_, trivial⟩
        simp only [Bool.and_eq_true, Bool.not_eq_true']
        refine ⟨⟨(isEmpty_false_iff _).mpr ha, (isEmpty_false_iff _).mpr hf⟩, ?_⟩
        rw [contains_false_iff, List.mem_singleton]
        exact hb.symm
  | some jd =>
      simp only [checkSubj, plannedDeconNames, hjd]
      cases hg : env.glob (jd ++ "/" ++ (subj ++ "*.json")) with
      | nil => simp
      | cons jf rest =>
          constructor
          · rintro ⟨p, hp⟩
            simp only [Except.ok.injEq, Prod.mk.injEq] at hp
            obtain ⟨hcond, -⟩ := hp
            simp only [Bool.and_eq_true, Bool.not_eq_true'] at hcond
            obtain ⟨⟨ha, hf⟩, hcont⟩ := hcond
            rw [contains_false_iff, List.mem_map] at hcont
            obtain ⟨kv, hkv, hkvf⟩ := hcont
            refine ⟨(isEmpty_false_iff _).mp ha, (isEmpty_false_iff _).mp hf,
              (env.loadJson jf).map Prod.fst, rfl, kv.1,
              List.mem_map_of_mem Prod.fst hkv, hkvf⟩
          · rintro ⟨ha, hf, names, hnames, n, hn, hb⟩
            obtain rfl : (env.loadJson jf).map Prod.fst = names := by
              simpa using hnames
            rw [List.mem_map] at hn
            obtain ⟨kv, hkv, rfl⟩ := hn
            refine ⟨some (env.loadJson jf), ?_⟩
            simp only [Except.ok.injEq, Prod.mk.injEq]
            refine ⟨?_, trivial⟩
            simp only [Bool.and_eq_true, Bool.not_eq_true']
            refine ⟨⟨(isEmpty_false_iff _).mpr ha, (isEmpty_false_iff _).mpr hf⟩, ?_⟩
            rw [contains_false_iff, List.mem_map]
            exact ⟨kv, hkv, hb⟩

/-- C2 (amended): when the selection pass completes, a subject is in the
work queue `subj_list` iff it is an entry of `prep_dir` matching `sub-*`
and not matching `*html`, the recursive anat and func globs are both
non-empty, and at least one planned deconvolution output file does not
exist. -/
theorem runAfni_subject_selection (env : AfniEnv) (a : RunAfniArgs)
    (subjs : List String) (dp : Option DeconPlan) (subj : String)
    (hok : selectSubjects env a = .ok (subjs, dp)) :
    subj ∈ subjs ↔
      (fnmatch subj "sub-*" = true ∧ fnmatch subj "*html" = false ∧
       subj ∈ env.listdir (prepDir a) ∧
       anatCheck env a subj ≠ [] ∧ funcCheck env a subj ≠ [] ∧
       ∃ names, plannedDeconNames env a subj = some names ∧
         ∃ n ∈ names, env.pexists (deconFile a subj n) = false) := by
  have hm := selectLoop_mem env a (subjListAll env a) [] none subjs dp hok subj
  have hsl : subj ∈ subjListAll env a ↔
      (subj ∈ env.listdir (prepDir a) ∧
        fnmatch subj "sub-*" = true ∧ fnmatch subj "*html" = false) := by
    unfold subjListAll
    rw [mem_sortLe, List.mem_filter]
    simp only [Bool.and_eq_true, Bool.not_eq_true']
  rw [hm]
  simp only [List.not_mem_nil, false_or]
  rw [checkSubj_true_iff env a subj, hsl]
  tauto

/-- Concrete environment for the C2 counterexample: the fMRIprep
derivatives folder holds a single directory `sub-10html`, its anat and
func globs match, and no deconvolution output exists yet. -/
def c2env : AfniEnv :=
  { listdir := fun _ => ["sub-10html"]
    glob := fun _ => ["found.nii.gz"]
    pexists := fun _ => false
    loadJson := fun _ => [] }

/-- Concrete arguments for the C2 counterexample (no `--json-dir`). -/
def c2args : RunAfniArgs :=
  ⟨"/proj", 8, "space-T", "2", "/scratch/afni", none, "ses-S1",
    "task-test", "/code"⟩

/-- C2 counterexample: the directory `sub-10html` matches `sub-*`, both
fMRIprep globs succeed, and its planned deconvolution output is missing
— yet the selection pass returns an empty work queue, because the code
additionally excludes `*html` entries, which the claim does not allow. -/
theorem runAfni_html_entry_not_selected :
    selectSubjects c2env c2args = .ok ([], none)
    ∧ fnmatch "sub-10html" "sub-*" = true
    ∧ anatCheck c2env c2args "sub-10html" ≠ []
    ∧ funcCheck c2env c2args "sub-10html" ≠ []
    ∧ c2env.pexists (deconFile c2args "sub-10html" "UniqueBehs") = false
    ∧ "sub-10html" ∉ ([] : List String) := by
  refine ⟨by decide, by decide, by decide, by decide, rfl, by decide⟩

/-- Witness for `runAfni_subject_selection`, instantiated at the
counterexample environment: the selection hypothesis is discharged by
computation and the equivalence specialises to `sub-10html`. -/
theorem runAfni_subject_selection_witness :
    "sub-10html" ∈ ([] : List String) ↔
      (fnmatch "sub-10html" "sub-*" = true ∧
       fnmatch "sub-10html" "*html" = false ∧
       "sub-10html" ∈ c2env.listdir (prepDir c2args) ∧
       anatCheck c2env c2args "sub-10html" ≠ [] ∧
       funcCheck c2env c2args "sub-10html" ≠ [] ∧
       ∃ names, plannedDeconNames c2env c2args "sub-10html" = some names ∧
         ∃ n ∈ names, c2env.pexists (deconFile c2args "sub-10html" n) = false) :=
  runAfni_subject_selection c2env c2args [] none "sub-10html" (by decide)

theorem selectLoop_last_plan (env : AfniEnv) (a : RunAfniArgs) :
    ∀ (l acc : List String) (dp : Option DeconPlan) (res : List String)
      (dpf : Option DeconPlan),
      selectLoop env a l (acc, dp) = .ok (res, dpf) → l ≠ [] →
      ∃ b, checkSubj env a (l.getLastD "") = .ok (b, dpf) := by
  intro l
  induction l with
  | nil => intro acc dp res dpf _ hne; exact absurd rfl hne
  | cons s rest ih =>
      intro acc dp res dpf h _
      simp only [selectLoop] at h
      cases hcs : checkSubj env a s with
      | error e => rw [hcs] at h; exact absurd h (by simp)
      | ok pr =>
          obtain ⟨added, pl⟩ := pr
          rw [hcs] at h
          have h2 : selectLoop env a rest
              ((if added = true then acc ++ [s] else acc), pl)
                = .ok (res, dpf) := h
          cases rest with
          | nil =>
              simp only [selectLoop, Except.ok.injEq, Prod.mk.injEq] at h2
              obtain ⟨-, h3⟩ := h2
              subst h3
              exact ⟨added, by simpa [List.getLastD] using hcs⟩
          | cons r rs =>
              have hih := ih _ _ _ _ h2 (by simp)
              simp only [List.getLastD_cons] at hih ⊢
              exact hih

/-- Concrete arguments for the C9 leak scenario (`--json-dir` given). -/
def c9args : RunAfniArgs :=
  ⟨"/proj", 8, "space-T", "2", "/scratch/afni", some "/json", "ses-S1",
    "task-test", "/code"⟩

/-- Concrete environment for the C9 leak scenario: two subjects, each
with its own JSON deconvolution plan; `sub-0001` is missing its planned
decon output, `sub-0002` already has its decon output on disk. -/
def c9env : AfniEnv :=
  { listdir := fun _ => ["sub-0002", "sub-0001"]
    glob := fun pat =>
      if pat = "/json/sub-0001*.json" then ["/json/sub-0001.json"]
      else if pat = "/json/sub-0002*.json" then ["/json/sub-0002.json"]
      else ["found.nii.gz"]
    pexists := fun p =>
      p == "/proj/derivatives/afni/sub-0002/ses-S1/func/decon_task-test_dec2_stats_REML+tlrc.HEAD"
    loadJson := fun p =>
      if p = "/json/sub-0001.json" then [("dec1", "tf1")]
      else [("dec2", "tf2")] }

/-- C9: with `--json-dir`, the `decon_plan` value handed to every
`submit_jobs` call is the plan loaded for the last subject iterated in
the selection loop — not the plan of the subject being submitted — and
on a concrete input a submitted subject is paired with another subject's
plan. -/
theorem runAfni_submissions_use_leftover_plan (env : AfniEnv)
    (a : RunAfniArgs) (jd : String) (subjs : List String)
    (dp : Option DeconPlan)
    (hjson : a.json_dir = some jd)
    (hok : selectSubjects env a = .ok (subjs, dp))
    (hne : subjListAll env a ≠ []) :
    (∃ jf, (env.glob (jd ++ "/"
          ++ ((subjListAll env a).getLastD "" ++ "*.json"))).head? = some jf
        ∧ dp = some (env.loadJson jf))
    ∧ submissions env a = .ok ((subjs.take a.batch_num).map (fun s => (s, dp)))
    ∧ (∀ p ∈ (subjs.take a.batch_num).map (fun s => (s, dp)), p.2 = dp)
    ∧ (∃ subj pl own,
        submissions c9env c9args = .ok [(subj, some pl)] ∧
        plannedDeconNames c9env c9args subj = some own ∧
        pl.map Prod.fst ≠ own) := by
  obtain ⟨b, hlast⟩ :=
    selectLoop_last_plan env a (subjListAll env a) [] none subjs dp hok hne
  refine ⟨?_, ?_, ?_, ?_⟩
  · simp only [checkSubj, hjson] at hlast
    cases hg : env.glob (jd ++ "/"
        ++ ((subjListAll env a).getLastD "" ++ "*.json")) with
    | nil => rw [hg] at hlast; exact absurd hlast (by simp)
    | cons jf rest =>
        rw [hg] at hlast
        simp only [Except.ok.injEq, Prod.mk.injEq] at hlast
        exact ⟨jf, rfl, hlast.2.symm⟩
  · show (match selectSubjects env a with
      | Except.error e => Except.error e
      | Except.ok (subj_list, decon_plan) =>
          Except.ok ((subj_list.take a.batch_num).map
            (fun subj => (subj, decon_plan))))
        = Except.ok ((subjs.take a.batch_num).map (fun s => (s, dp)))
    rw [hok]
  · intro p hp
    rw [List.mem_map] at hp
    obtain ⟨s, -, rfl⟩ := hp
    rfl
  · exact ⟨"sub-0001", [("dec2", "tf2")], ["dec1"], by decide, by decide,
      by decide⟩

/-- Witness for `runAfni_submissions_use_leftover_plan`: the leak
scenario itself, with every hypothesis discharged by computation. -/
theorem runAfni_submissions_use_leftover_plan_witness :
    (∃ jf, (c9env.glob ("/json" ++ "/"
          ++ ((subjListAll c9env c9args).getLastD "" ++ "*.json"))).head? = some jf
        ∧ some [("dec2", "tf2")] = some (c9env.loadJson jf))
    ∧ submissions c9env c9args
        = .ok ((["sub-0001"].take c9args.batch_num).map
            (fun s => (s, some [("dec2", "tf2")])))
    ∧ (∀ p ∈ (["sub-0001"].take c9args.batch_num).map
          (fun s => (s, some [("dec2", "tf2")])),
        p.2 = some [("dec2", "tf2")])
    ∧ (∃ subj pl own,
        submissions c9env c9args = .ok [(subj, some pl)] ∧
        plannedDeconNames c9env c9args subj = some own ∧
        pl.map Prod.fst ≠ own) :=
  runAfni_submissions_use_leftover_plan c9env c9args "/json" ["sub-0001"]
    (some [("dec2", "tf2")]) rfl (by decide) (by decide)

/-! ## `control_preproc` of `workflow/control_afni.py` and the stage
signatures it calls (`resources/afni/{copy,process,masks,motion}.py`)

Python resolves positional calls against a signature at call time: a
call with `n` positional arguments succeeds iff `n` is at least the
number of parameters without defaults and at most the total number of
parameters; otherwise it raises `TypeError`.  The stage signatures below
are transcribed from the `def` lines of the resource modules, and the
call list from the body of `control_preproc` (lines 84–99). -/

/-- One Python formal parameter: its name and whether it has a default. -/
structure PyParam where
  pname : String
  hasDefault : Bool
deriving Repr, DecidableEq

/-- Number of parameters without defaults. -/
def requiredCount (ps : List PyParam) : Nat :=
  (ps.filter (fun p => ! p.hasDefault)).length

/-- Whether a call with `nargs` positional arguments binds against the
signature without raising `TypeError`. -/
def acceptsPositional (ps : List PyParam) (nargs : Nat) : Bool :=
  decide (requiredCount ps ≤ nargs) && decide (nargs ≤ ps.length)

/-- `copy_data(prep_dir, work_dir, subj, task, tplflow_str)`. -/
def copy_data_params : List PyParam :=
  [⟨"prep_dir", false⟩, ⟨"work_dir", false⟩, ⟨"subj", false⟩,
   ⟨"task", false⟩, ⟨"tplflow_str", false⟩]

/-- `blur_epi(work_dir, subj_num, afni_data, blur_mult=1.5)`. -/
def blur_epi_params : List PyParam :=
  [⟨"work_dir", false⟩, ⟨"subj_num", false⟩, ⟨"afni_data", false⟩,
   ⟨"blur_mult", true⟩]

/-- `make_intersect_mask(work_dir, subj_num, afni_data, sess, task,
do_blur, c_frac="0.5", nbr_type="NN2", n_nbr=17)`. -/
def make_intersect_mask_params : List PyParam :=
  [⟨"work_dir", false⟩, ⟨"subj_num", false⟩, ⟨"afni_data", false⟩,
   ⟨"sess", false⟩, ⟨"task", false⟩, ⟨"do_blur", false⟩,
   ⟨"c_frac", true⟩, ⟨"nbr_type", true⟩, ⟨"n_nbr", true⟩]

/-- `make_tissue_masks(work_dir, subj_num, afni_data, thresh=0.5)`. -/
def make_tissue_masks_params : List PyParam :=
  [⟨"work_dir", false⟩, ⟨"subj_num", false⟩, ⟨"afni_data", false⟩,
   ⟨"thresh", true⟩]

/-- `make_minimum_masks(work_dir, subj_num, task, afni_data)`. -/
def make_minimum_masks_params : List PyParam :=
  [⟨"work_dir", false⟩, ⟨"subj_num", false⟩, ⟨"task", false⟩,
   ⟨"afni_data", false⟩]

/-- `scale_epi(work_dir, subj_num, afni_data)`. -/
def scale_epi_params : List PyParam :=
  [⟨"work_dir", false⟩, ⟨"subj_num", false⟩, ⟨"afni_data", false⟩]

/-- `mot_files(work_dir, afni_data)`. -/
def mot_files_params : List PyParam :=
  [⟨"work_dir", false⟩, ⟨"afni_data", false⟩]

/-- The stage calls of `control_preproc`, in source order, each with the
signature it resolves against and the number of positional arguments the
call passes. -/
def control_preproc_stage_calls : List (String × List PyParam × Nat) :=
  [ ("copy.copy_data", copy_data_params, 5),
    ("process.blur_epi", blur_epi_params, 3),
    ("masks.make_intersect_mask", make_intersect_mask_params, 5),
    ("masks.make_tissue_masks", make_tissue_masks_params, 3),
    ("masks.make_minimum_masks", make_minimum_masks_params, 5),
    ("process.scale_epi", scale_epi_params, 3),
    ("motion.mot_files", mot_files_params, 3) ]

/-- C4: the stage sequence of `control_preproc` is as the claim lists
it, but the invocation cannot run to completion: the first failing call
is the third stage — `masks.make_intersect_mask` is given 5 positional
arguments while its signature requires 6 (`do_blur` has no default) —
and `make_minimum_masks` (5 args for 4 parameters) and `mot_files`
(3 args for 2 parameters) also fail to bind, so every run of
`control_preproc` raises `TypeError` before reaching the mask stages. -/
theorem control_preproc_stage_type_error :
    (control_preproc_stage_calls.map (fun c => c.1))
      = ["copy.copy_data", "process.blur_epi", "masks.make_intersect_mask",
         "masks.make_tissue_masks", "masks.make_minimum_masks",
         "process.scale_epi", "motion.mot_files"]
    ∧ control_preproc_stage_calls.findIdx?
        (fun c => ! acceptsPositional c.2.1 c.2.2) = some 2
    ∧ acceptsPositional make_intersect_mask_params 5 = false
    ∧ acceptsPositional make_minimum_masks_params 5 = false
    ∧ acceptsPositional mot_files_params 3 = false
    ∧ acceptsPositional copy_data_params 5 = true
    ∧ acceptsPositional blur_epi_params 3 = true
    ∧ acceptsPositional make_tissue_masks_params 3 = true
    ∧ acceptsPositional scale_epi_params 3 = true := by
  decide

/-! ## `check_preproc` of `resources/reports/check_complete.py`

The function starts with a live `# For testing` block (lines 59–68) that
rebinds every parameter before any of them is used, then clones (or
pulls) the repository, reads/updates `logs/completed_preprocessing.tsv`,
and git-adds/commits/pushes it. -/

/-- Effects of `check_preproc`, in order. -/
inductive CheckOp where
  | cloneRepo (url dest : String)
  | pullRepo (dest : String)
  | readTsv (path : String)
  | writeTsv (path : String)
  | gitAdd (path : String)
  | gitCommit
  | gitPush
deriving Repr, DecidableEq

/-- The local variables of `check_preproc` after the `# For testing`
block has run, plus derived paths. -/
structure CheckPreprocSetup where
  proj_dir : String
  code_dir : String
  pat_github_emu : String
  new_df : Bool
  one_subj : Option String
  repo_origin : String
  completed_tsv : String
deriving Repr, DecidableEq

/-- Lines 59–68 of `check_preproc`: the testing block overwrites
`proj_dir`, `code_dir`, `pat_github_emu`, `one_subj` and `new_df`
(reading the token from `os.environ["TOKEN_GITHUB_EMU"]`), so the
underscored function parameters are dead on arrival. -/
def check_preproc_setup (_proj_dir _code_dir _pat_github_emu : String)
    (_new_df : Bool) (_one_subj : Option String)
    (platformIsLinux : Bool) (envToken : String) : CheckPreprocSetup :=
  let proj_dir := if platformIsLinux then "/home/data/madlab/McMakin_EMUR01"
    else "/Volumes/homes/MaDLab/projects/McMakin_EMUR01"
  let code_dir := "/home/nmuncy/compute/func_processing"
  let pat_github_emu := envToken
  let one_subj := some "sub-4168"
  let new_df := false
  { proj_dir := proj_dir
    code_dir := code_dir
    pat_github_emu := pat_github_emu
    new_df := new_df
    one_subj := one_subj
    repo_origin := "https://" ++ pat_github_emu
      ++ ":x-oauth-basic@github.com/emu-project/func_processing.git"
    completed_tsv := code_dir ++ "/" ++ "logs" ++ "/"
      ++ "completed_preprocessing.tsv" }

/-- The effect sequence of `check_preproc`: clone (or, when the clone
raises, pull the existing clone), write a fresh TSV when `new_df` (the
rebound one, which is always `false`), read the TSV, write it back, and
unconditionally git-add/commit/push it. -/
def check_preproc_ops (pd cd pat : String) (ndf : Bool) (osub : Option String)
    (platformIsLinux cloneFails : Bool) (envToken : String) : List CheckOp :=
  let st := check_preproc_setup pd cd pat ndf osub platformIsLinux envToken
  ((if cloneFails then [CheckOp.cloneRepo st.repo_origin st.code_dir,
      CheckOp.pullRepo st.code_dir]
    else [CheckOp.cloneRepo st.repo_origin st.code_dir])
   ++ (if st.new_df then [CheckOp.writeTsv st.completed_tsv] else [])
   ++ [CheckOp.readTsv st.completed_tsv])
  ++ [CheckOp.writeTsv st.completed_tsv, CheckOp.gitAdd st.completed_tsv,
      CheckOp.gitCommit, CheckOp.gitPush]

/-- C4-style evaluation for C5: `check_preproc` called with explicit
arguments ignores all of them — the clone target is the hard-coded
`/home/nmuncy/compute/func_processing`, `new_df=True` is discarded, the
subject filter is forced to `sub-4168`, the token comes from the
environment — while the tail of the effect sequence still always ends
with write/add/commit/push of the (hard-coded) TSV path. -/
theorem check_preproc_ignores_arguments :
    (check_preproc_setup "/some/proj" "/my/clone" "token123" true
        (some "sub-9999") true "envtok").code_dir
      = "/home/nmuncy/compute/func_processing"
    ∧ (check_preproc_setup "/some/proj" "/my/clone" "token123" true
        (some "sub-9999") true "envtok").code_dir ≠ "/my/clone"
    ∧ (check_preproc_setup "/some/proj" "/my/clone" "token123" true
        (some "sub-9999") true "envtok").new_df = false
    ∧ (check_preproc_setup "/some/proj" "/my/clone" "token123" true
        (some "sub-9999") true "envtok").one_subj = some "sub-4168"
    ∧ (check_preproc_setup "/some/proj" "/my/clone" "token123" true
        (some "sub-9999") true "envtok").pat_github_emu = "envtok"
    ∧ (∀ cloneFails : Bool,
        check_preproc_ops "/some/proj" "/my/clone" "token123" true
            (some "sub-9999") true cloneFails "envtok"
          = (if cloneFails then
              [CheckOp.cloneRepo (check_preproc_setup "/some/proj" "/my/clone"
                  "token123" true (some "sub-9999") true "envtok").repo_origin
                  "/home/nmuncy/compute/func_processing",
                CheckOp.pullRepo "/home/nmuncy/compute/func_processing"]
             else
              [CheckOp.cloneRepo (check_preproc_setup "/some/proj" "/my/clone"
                  "token123" true (some "sub-9999") true "envtok").repo_origin
                  "/home/nmuncy/compute/func_processing"])
            ++ [CheckOp.readTsv
                  "/home/nmuncy/compute/func_processing/logs/completed_preprocessing.tsv",
                CheckOp.writeTsv
                  "/home/nmuncy/compute/func_processing/logs/completed_preprocessing.tsv",
                CheckOp.gitAdd
                  "/home/nmuncy/compute/func_processing/logs/completed_preprocessing.tsv",
                CheckOp.gitCommit, CheckOp.gitPush]) := by
  refine ⟨rfl, by decide, rfl, rfl, rfl, ?_⟩
  intro cloneFails
  cases cloneFails <;> decide

/-! ## The per-cell completeness check
(`resources/reports/check_complete.py` lines 151–182 and
`logs/check_complete.py` lines 73–90)

A log cell is `none` when empty (pandas `NaN`) and `some v` once a value
was written.  The filesystem oracle answers `glob.glob` and
`os.path.getmtime`; it also carries the (never consulted) file
contents. -/

/-- Filesystem oracle for the completeness checks: glob answers, file
modification times, and file contents (which the code never reads). -/
structure LogFS where
  glob : String → List String
  mtime : String → Nat
  contents : String → String

/-- The glob pattern `{deriv_dir}/{deriv}/{subj}/**/*{deriv_str}*`. -/
def derivGlobPat (deriv_dir deriv subj deriv_str : String) : String :=
  deriv_dir ++ "/" ++ deriv ++ "/" ++ subj ++ "/**/*" ++ deriv_str ++ "*"

/-- The cell value written on success:
`time.strftime("%Y-%m-%d %H:%M:%S", time.strptime(time.ctime(os.path.getmtime(f))))`,
a rendering of the found file's modification time (the calendar
formatting is abstracted as `toString` of the mtime). -/
def mtimeStamp (fs : LogFS) (path : String) : String :=
  toString (fs.mtime path)

/-- One cell update of `check_preproc` (lines 164–178): a non-empty cell
is skipped (`continue`) without globbing; an empty cell is globbed and,
when a file is found, filled with its mtime stamp.  Returns the new cell
value and whether the glob ran. -/
def updateCellPreproc (fs : LogFS) (deriv_dir deriv subj deriv_str : String)
    (cell : Option String) : Option String × Bool :=
  match cell with
  | some v => (some v, false)
  | none =>
      match fs.glob (derivGlobPat deriv_dir deriv subj deriv_str) with
      | [] => (none, true)
      | f :: _ => (some (mtimeStamp fs f), true)

/-- One cell update of `logs/check_complete.py` (lines 81–87): the cell
is unconditionally set to whether the glob found anything
(`h_input = True if deriv_file else False`). -/
def updateCellLogs (fs : LogFS) (deriv_dir deriv subj deriv_str : String) :
    Bool :=
  !(fs.glob (derivGlobPat deriv_dir deriv subj deriv_str)).isEmpty

/-- The `expected_dict` of `check_preproc`, flattened in iteration
order: (derivatives subdirectory, glob fragment). -/
def expected_entries : List (String × String) :=
  [ ("afni", "desc-WMe_mask"),
    ("afni", "ses-S1_space-MNIPediatricAsym_cohort-5_res-2_desc-intersect_mask.nii.gz"),
    ("afni", "ses-S2_space-MNIPediatricAsym_cohort-5_res-2_desc-intersect_mask.nii.gz"),
    ("afni", "run-1_*_desc-scaled_bold"),
    ("afni", "run-2_*_desc-scaled_bold"),
    ("afni", "run-3_*_desc-scaled_bold"),
    ("afni", "decon_task-study_UniqueBehs_stats_REML+tlrc.HEAD"),
    ("afni", "decon_task-test_UniqueBehs_stats_REML+tlrc.HEAD"),
    ("ashs", "left_lfseg_corr_usegray"),
    ("ashs", "right_lfseg_corr_usegray"),
    ("reface", "desc-reface") ]

/-- One subject's row of `completed_preprocessing.tsv` updated cell by
cell over `expected_dict`. -/
def updateRow (fs : LogFS) (deriv_dir subj : String)
    (cells : List (Option String)) : List (Option String) :=
  List.zipWith
    (fun e c => (updateCellPreproc fs deriv_dir e.1 subj e.2 c).1)
    expected_entries cells

/-- A subject's row through `check_preproc`'s dataframe logic: when
`new_df` is true the row is recreated empty (the fresh dataframe of
lines 143–146) before the cell loop runs; otherwise the previously
recorded row is used as-is. -/
def checkPreprocRow (fs : LogFS) (deriv_dir subj : String) (new_df : Bool)
    (prior : List (Option String)) : List (Option String) :=
  let start := if new_df then
    List.replicate expected_entries.length (none : Option String) else prior
  updateRow fs deriv_dir subj start

theorem zipWith_get?_some {α β γ : Type} (f : α → β → γ) :
    ∀ (l1 : List α) (l2 : List β) (i : Nat) (a : α) (b : β),
      l1.get? i = some a → l2.get? i = some b →
      (List.zipWith f l1 l2).get? i = some (f a b) := by
  intro l1
  induction l1 with
  | nil => intro l2 i a b h1 _; simp at h1
  | cons x xs ih =>
      intro l2 i a b h1 h2
      cases l2 with
      | nil => simp at h2
      | cons y ys =>
          cases i with
          | zero =>
              simp only [List.get?] at h1 h2
              cases h1; cases h2
              rfl
          | succ n =>
              simp only [List.get?] at h1 h2 ⊢
              exact ih ys n a b h1 h2

/-- C6: the completeness check marks a (fresh) cell complete — writing
the found file's mtime stamp in `check_preproc`, or `True` in the
`logs/check_complete.py` variant — iff the recursive glob
`{deriv_dir}/{deriv}/{subj}/**/*{deriv_str}*` returns at least one path;
and the decision depends only on glob answers and mtimes, never on file
contents. -/
theorem completeness_mark_iff_glob (fs : LogFS)
    (deriv_dir deriv subj deriv_str : String) :
    ((updateCellPreproc fs deriv_dir deriv subj deriv_str none).1 ≠ none ↔
      fs.glob (derivGlobPat deriv_dir deriv subj deriv_str) ≠ [])
    ∧ (∀ f rest,
        fs.glob (derivGlobPat deriv_dir deriv subj deriv_str) = f :: rest →
        (updateCellPreproc fs deriv_dir deriv subj deriv_str none).1
          = some (mtimeStamp fs f))
    ∧ (updateCellLogs fs deriv_dir deriv subj deriv_str = true ↔
        fs.glob (derivGlobPat deriv_dir deriv subj deriv_str) ≠ [])
    ∧ (∀ fs2 : LogFS, fs2.glob = fs.glob → fs2.mtime = fs.mtime →
        updateCellPreproc fs2 deriv_dir deriv subj deriv_str none
            = updateCellPreproc fs deriv_dir deriv subj deriv_str none
          ∧ updateCellLogs fs2 deriv_dir deriv subj deriv_str
            = updateCellLogs fs deriv_dir deriv subj deriv_str) := by
  refine ⟨?_, ?_, ?_, ?_⟩
  · cases hg : fs.glob (derivGlobPat deriv_dir deriv subj deriv_str) with
    | nil => simp [updateCellPreproc, hg]
    | cons f rest => simp [updateCellPreproc, hg]
  · intro f rest hg
    simp [updateCellPreproc, hg]
  · cases hg : fs.glob (derivGlobPat deriv_dir deriv subj deriv_str) with
    | nil => simp [updateCellLogs, hg]
    | cons f rest => simp [updateCellLogs, hg]
  · intro fs2 hglob hmtime
    constructor
    · simp [updateCellPreproc, hglob, mtimeStamp, hmtime]
    · simp [updateCellLogs, hglob]

/-- Witness for `completeness_mark_iff_glob` at a concrete filesystem
whose glob finds one file of mtime 1700000000. -/
def c6fs : LogFS :=
  { glob := fun _ => ["/deriv/afni/sub-1/ses-S1/found.nii.gz"]
    mtime := fun _ => 1700000000
    contents := fun _ => "" }

/-- A second filesystem differing from `c6fs` only in file contents. -/
def c6fs2 : LogFS :=
  { glob := fun _ => ["/deriv/afni/sub-1/ses-S1/found.nii.gz"]
    mtime := fun _ => 1700000000
    contents := fun _ => "different bytes" }

theorem completeness_mark_iff_glob_witness :
    ((updateCellPreproc c6fs "/deriv" "afni" "sub-1" "desc-WMe_mask" none).1
        = some (mtimeStamp c6fs "/deriv/afni/sub-1/ses-S1/found.nii.gz"))
    ∧ (updateCellPreproc c6fs2 "/deriv" "afni" "sub-1" "desc-WMe_mask" none
        = updateCellPreproc c6fs "/deriv" "afni" "sub-1" "desc-WMe_mask" none) :=
  ⟨(completeness_mark_iff_glob c6fs "/deriv" "afni" "sub-1"
      "desc-WMe_mask").2.1 "/deriv/afni/sub-1/ses-S1/found.nii.gz" [] rfl,
   ((completeness_mark_iff_glob c6fs "/deriv" "afni" "sub-1"
      "desc-WMe_mask").2.2.2 c6fs2 rfl rfl).1⟩

/-- C8: with `new_df=False` a non-empty cell is skipped — the glob does
not run and the recorded value is returned unchanged — so recorded
completions survive even if the file has since disappeared; a whole row
keeps every recorded cell; and the only path that clears cells is the
`new_df=True` fresh-dataframe branch. -/
theorem completed_cells_never_cleared (fs : LogFS) (deriv_dir subj : String) :
    (∀ deriv deriv_str v,
        updateCellPreproc fs deriv_dir deriv subj deriv_str (some v)
          = (some v, false))
    ∧ (∀ (prior : List (Option String)) (i : Nat) (v : String),
        prior.get? i = some (some v) → i < expected_entries.length →
        (checkPreprocRow fs deriv_dir subj false prior).get? i
          = some (some v))
    ∧ (∀ prior, checkPreprocRow fs deriv_dir subj true prior
        = updateRow fs deriv_dir subj
            (List.replicate expected_entries.length none)) := by
  refine ⟨fun _ _ _ => rfl, ?_, fun _ => rfl⟩
  intro prior i v hget hlen
  have he : expected_entries.get? i
      = some (expected_entries.get ⟨i, hlen⟩) := List.get?_eq_get hlen
  have := zipWith_get?_some
    (fun (e : String × String) (c : Option String) =>
      (updateCellPreproc fs deriv_dir e.1 subj e.2 c).1)
    expected_entries prior i (expected_entries.get ⟨i, hlen⟩) (some v) he hget
  simpa [checkPreprocRow, updateRow, updateCellPreproc] using this

/-- Witness for `completed_cells_never_cleared`: a recorded cell at
index 0 survives a run over a filesystem where the glob no longer finds
anything. -/
def c8fs : LogFS :=
  { glob := fun _ => []
    mtime := fun _ => 0
    contents := fun _ => "" }

theorem completed_cells_never_cleared_witness :
    (checkPreprocRow c8fs "/deriv" "sub-1" false
        (some "2021-01-01 00:00:00" :: List.replicate 10 none)).get? 0
      = some (some "2021-01-01 00:00:00") :=
  (completed_cells_never_cleared c8fs "/deriv" "sub-1").2.1
    (some "2021-01-01 00:00:00" :: List.replicate 10 none) 0
    "2021-01-01 00:00:00" rfl (by decide)

/-! ## `copy_data` of `resources/afni/copy.py`

Copies selected fMRIprep outputs into the AFNI work directory.  After
each `shutil.copyfile` the code asserts that the destination exists and
otherwise raises `AssertionError` with a diagnostic message; nothing is
caught, nothing is retried, and nothing is ever deleted.  The
environment oracle answers globs, pre-existing-file queries, and whether
a given `copyfile` call materialises its destination. -/

/-- Environment oracle for `copy_data`. -/
structure CopyEnv where
  glob : String → List String
  exists0 : String → Bool
  copyOk : String → String → Bool

/-- A filesystem side effect performed by `copy_data`. -/
inductive FsOp where
  | copyfile (src dst : String)
  | remove (path : String)
deriving Repr, DecidableEq

/-- Mutable state threaded through `copy_data`: the `file_dict` being
built, the destinations materialised so far by this call, and the trace
of filesystem operations attempted. -/
structure CopySt where
  file_dict : List (String × String)
  written : List String
  trace : List FsOp
deriving Repr, DecidableEq

/-- `os.path.exists` during the call: a file exists if it pre-existed or
was materialised by an earlier copy of this call. -/
def fileExists (env : CopyEnv) (written : List String) (p : String) : Bool :=
  env.exists0 p || written.contains p

/-- Python dict assignment `d[k] = v`: replace the existing binding or
append a new one. -/
def dictInsert (d : List (String × String)) (k v : String) :
    List (String × String) :=
  if d.any (fun kv => kv.1 == k) then
    d.map (fun kv => if kv.1 == k then (k, v) else kv)
  else d ++ [(k, v)]

/-- The body of one copy-loop iteration before its assert: update
`file_dict`, and run `shutil.copyfile` only when the destination does
not already exist (recording the attempt in the trace). -/
def applyCopy (env : CopyEnv) (dest_dir pref key : String) (st : CopySt)
    (src : String) : CopySt :=
  let name := lastComponent src
  let d := dictInsert st.file_dict key (pref ++ "/" ++ name)
  let out_file := dest_dir ++ "/" ++ name
  if fileExists env st.written out_file then ⟨d, st.written, st.trace⟩
  else if env.copyOk src out_file then
    ⟨d, out_file :: st.written, st.trace ++ [FsOp.copyfile src out_file]⟩
  else ⟨d, st.written, st.trace ++ [FsOp.copyfile src out_file]⟩

/-- One of the three copy loops of `copy_data`.  `keyOf count name`
computes the `file_dict` key (the anat loop looks the name up in
`file_name_switch`, raising `KeyError` when absent; the EPI/motion loops
use `epi-preproc{count+1}` / `mot-confound{count+1}`).  On the first
failed assert the loop stops, returning the state reached so far and the
`AssertionError` message. -/
def copyFilesLoop (env : CopyEnv) (dest_dir pref : String)
    (keyOf : Nat → String → Except String String) :
    Nat → List String → CopySt → CopySt × Option String
  | _, [], st => (st, none)
  | count, src :: rest, st =>
      match keyOf count (lastComponent src) with
      | .error e => (st, some e)
      | .ok key =>
          let st1 := applyCopy env dest_dir pref key st src
          if fileExists env st1.written (dest_dir ++ "/" ++ lastComponent src)
          then copyFilesLoop env dest_dir pref keyOf (count + 1) rest st1
          else (st1, some (dest_dir ++ "/" ++ lastComponent src
              ++ " failed to copy, check resources.afni.copy."))

/-- The `file_name_switch` of `copy_data`. -/
def anatKeySwitch (anat_str : String) : List (String × String) :=
  [ (anat_str ++ "_desc-preproc_T1w.nii.gz", "struct-t1"),
    (anat_str ++ "_desc-brain_mask.nii.gz", "mask-brain"),
    (anat_str ++ "_label-GM_probseg.nii.gz", "mask-probGM"),
    (anat_str ++ "_label-WM_probseg.nii.gz", "mask-probWM") ]

/-- Association-list lookup (Python `dict[k]`). -/
def lookupA (d : List (String × String)) (k : String) : Option String :=
  (d.find? (fun kv => kv.1 == k)).map Prod.snd

/-- Key function of the anat loop: `file_name_switch[anat_name]`. -/
def anatKeyOf (anat_str : String) : Nat → String → Except String String :=
  fun _ name =>
    match lookupA (anatKeySwitch anat_str) name with
    | some k => .ok k
    | none => .error ("KeyError: " ++ name)

/-- Key function of the EPI and motion loops:
`epi-preproc{count+1}` / `mot-confound{count+1}`. -/
def countKeyOf (keyPref : String) : Nat → String → Except String String :=
  fun count _ => .ok (keyPref ++ toString (count + 1))

/-- The glob pattern for the template-space preprocessed T1w
(`{prep_dir}/{subj}/**/*{tplflow_str}_desc-preproc_T1w.nii.gz`). -/
def t1Pat (prep_dir subj tplflow_str : String) : String :=
  prep_dir ++ "/" ++ subj ++ "/**/*" ++ tplflow_str
    ++ "_desc-preproc_T1w.nii.gz"

/-- `anat_str = h_anat[0].split("/")[-1].split("_desc")[0]`. -/
def anatStrOf (h0 : String) : String :=
  ((lastComponent h0).splitOn "_desc").headD ""

/-- The `desired_anat` tuple of `copy_data`. -/
def desiredAnat (anat_str : String) : List String :=
  [ anat_str ++ "_desc-preproc_T1w.nii.gz",
    anat_str ++ "_desc-brain_mask.nii.gz",
    anat_str ++ "_label-GM_probseg.nii.gz",
    anat_str ++ "_label-WM_probseg.nii.gz" ]

/-- `anat_files`: the globs of each desired anat file, concatenated in
order. -/
def anatFilesOf (env : CopyEnv) (prep_dir subj anat_str : String) :
    List String :=
  (desiredAnat anat_str).flatMap
    (fun anat => env.glob (prep_dir ++ "/" ++ subj ++ "/**/" ++ anat))

/-- `copy_data` of `resources/afni/copy.py`, returning the final state
(the `file_dict`, the destinations materialised, the operation trace)
together with the raised error message, if any (`AssertionError`
diagnostics; `IndexError` when the initial T1w glob is empty). -/
def copy_data (env : CopyEnv) (prep_dir work_dir subj task tplflow_str :
    String) : CopySt × Option String :=
  let st0 : CopySt := ⟨[], [], []⟩
  match env.glob (t1Pat prep_dir subj tplflow_str) with
  | [] => (st0, some "IndexError: list index out of range")
  | h0 :: _ =>
      let anat_str := anatStrOf h0
      let anat_files := anatFilesOf env prep_dir subj anat_str
      if (desiredAnat anat_str).length ≠ anat_files.length then
        (st0, some "Missing desired_anat files, check resources.afni.copy.")
      else
        match copyFilesLoop env (work_dir ++ "/" ++ "anat") "anat"
            (anatKeyOf anat_str) 0 anat_files st0 with
        | (st1, some e) => (st1, some e)
        | (st1, none) =>
            let epi_files := sortLe strLe (env.glob (prep_dir ++ "/" ++ subj
              ++ "/**/*" ++ task ++ "*" ++ tplflow_str
              ++ "_desc-preproc_bold.nii.gz"))
            let mot_files := sortLe strLe (env.glob (prep_dir ++ "/" ++ subj
              ++ "/**/*" ++ task ++ "*desc-confounds_timeseries.tsv"))
            if epi_files.length ≠ mot_files.length then
              (st1, some "Number of task EPI files != condound files, check resources.afni.copy.")
            else
              match copyFilesLoop env (work_dir ++ "/" ++ "func") "func"
                  (countKeyOf "epi-preproc") 0 epi_files st1 with
              | (st2, some e) => (st2, some e)
              | (st2, none) =>
                  copyFilesLoop env (work_dir ++ "/" ++ "func") "func"
                    (countKeyOf "mot-confound") 0 mot_files st2

/-- The tail of `run_fmriprep` (`resources/fmriprep/fmriprep.py`
lines 75–81): glob for the preprocessed T1w and assert it was found. -/
def run_fmriprep_check (glob : String → List String)
    (deriv_dir subj : String) : Except String (List String) :=
  let t1_found := glob (deriv_dir ++ "/fmriprep/" ++ subj
    ++ "/**/*desc-preproc_T1w.nii.gz")
  if t1_found.isEmpty then
    .error "fMRIprep failed, check resources.fmriprep.fmriprep.run_fmriprep."
  else .ok t1_found

theorem applyCopy_trace (env : CopyEnv) (dest_dir pref key : String)
    (st : CopySt) (src : String) :
    (applyCopy env dest_dir pref key st src).trace = st.trace ∨
    (applyCopy env dest_dir pref key st src).trace
      = st.trace ++ [FsOp.copyfile src (dest_dir ++ "/" ++ lastComponent src)] := by
  simp only [applyCopy]
  split_ifs <;> simp

theorem applyCopy_written_mono (env : CopyEnv) (dest_dir pref key : String)
    (st : CopySt) (src : String) :
    ∀ p ∈ st.written, p ∈ (applyCopy env dest_dir pref key st src).written := by
  simp only [applyCopy]
  split_ifs <;> intro p hp <;> simp [hp]

theorem copyFilesLoop_trace_inv (env : CopyEnv) (dest_dir pref : String)
    (keyOf : Nat → String → Except String String) :
    ∀ (files : List String) (count : Nat) (st : CopySt),
      (∀ op ∈ st.trace, ∃ s d, op = FsOp.copyfile s d) →
      ∀ op ∈ (copyFilesLoop env dest_dir pref keyOf count files st).1.trace,
        ∃ s d, op = FsOp.copyfile s d := by
  intro files
  induction files with
  | nil => intro count st hst op hop; exact hst op hop
  | cons src rest ih =>
      intro count st hst op hop
      simp only [copyFilesLoop] at hop
      cases hk : keyOf count (lastComponent src) with
      | error e => rw [hk] at hop; exact hst op hop
      | ok key =>
          rw [hk] at hop
          have hop2 : op ∈ (if fileExists env
              (applyCopy env dest_dir pref key st src).written
              (dest_dir ++ "/" ++ lastComponent src) = true
            then copyFilesLoop env dest_dir pref keyOf (count + 1) rest
                (applyCopy env dest_dir pref key st src)
            else (applyCopy env dest_dir pref key st src,
              some (dest_dir ++ "/" ++ lastComponent src
                ++ " failed to copy, check resources.afni.copy."))).1.trace :=
            hop
          have hst1 : ∀ op' ∈ (applyCopy env dest_dir pref key st src).trace,
              ∃ s d, op' = FsOp.copyfile s d := by
            intro op' hop'
            rcases applyCopy_trace env dest_dir pref key st src with h | h
            · exact hst op' (h ▸ hop')
            · rw [h, List.mem_append, List.mem_singleton] at hop'
              rcases hop' with hop' | hop'
              · exact hst op' hop'
              · exact ⟨src, dest_dir ++ "/" ++ lastComponent src, hop'⟩
          by_cases hfe : fileExists env
              (applyCopy env dest_dir pref key st src).written
              (dest_dir ++ "/" ++ lastComponent src) = true
          · rw [if_pos hfe] at hop2
            exact ih (count + 1) _ hst1 op hop2
          · rw [if_neg hfe] at hop2
            exact hst1 op hop2

theorem copyFilesLoop_written_mono (env : CopyEnv) (dest_dir pref : String)
    (keyOf : Nat → String → Except String String) :
    ∀ (files : List String) (count : Nat) (st : CopySt),
      ∀ p ∈ st.written,
        p ∈ (copyFilesLoop env dest_dir pref keyOf count files st).1.written := by
  intro files
  induction files with
  | nil => intro count st p hp; exact hp
  | cons src rest ih =>
      intro count st p hp
      simp only [copyFilesLoop]
      cases hk : keyOf count (lastComponent src) with
      | error e => exact hp
      | ok key =>
          have hp1 : p ∈ (applyCopy env dest_dir pref key st src).written :=
            applyCopy_written_mono env dest_dir pref key st src p hp
          show p ∈ (if fileExists env
              (applyCopy env dest_dir pref key st src).written
              (dest_dir ++ "/" ++ lastComponent src) = true
            then copyFilesLoop env dest_dir pref keyOf (count + 1) rest
                (applyCopy env dest_dir pref key st src)
            else (applyCopy env dest_dir pref key st src,
              some (dest_dir ++ "/" ++ lastComponent src
                ++ " failed to copy, check resources.afni.copy."))).1.written
          by_cases hfe : fileExists env
              (applyCopy env dest_dir pref key st src).written
              (dest_dir ++ "/" ++ lastComponent src) = true
          · rw [if_pos hfe]
            exact ih (count + 1) _ p hp1
          · rw [if_neg hfe]
            exact hp1

/-- C7: failure handling in the copy step consists solely of asserts.
(1) When an attempted copy does not materialise its destination, the
copy loop stops with the `AssertionError` diagnostic
`<out_file> failed to copy, check resources.afni.copy.` and returns the
state reached so far — nothing is retried (the trace gains at most this
one attempt).  (2) The destinations written by earlier steps survive to
whatever state the loop returns.  (3) Over a whole `copy_data` call the
operation trace consists of `copyfile` attempts only — no removal, no
cleanup on failure.  (4) An error raised inside the anat loop is
returned by `copy_data` unchanged: nothing catches it.  (5) In
`run_fmriprep`, an empty T1w glob raises the `AssertionError`
`fMRIprep failed, ...`. -/
theorem copy_error_handling :
    (∀ (env : CopyEnv) (dest_dir pref : String)
        (keyOf : Nat → String → Except String String) (count : Nat)
        (src : String) (rest : List String) (st : CopySt) (key : String),
      keyOf count (lastComponent src) = .ok key →
      fileExists env (applyCopy env dest_dir pref key st src).written
          (dest_dir ++ "/" ++ lastComponent src) = false →
      copyFilesLoop env dest_dir pref keyOf count (src :: rest) st
        = (applyCopy env dest_dir pref key st src,
           some (dest_dir ++ "/" ++ lastComponent src
             ++ " failed to copy, check resources.afni.copy."))
      ∧ (applyCopy env dest_dir pref key st src).trace.length
          ≤ st.trace.length + 1)
    ∧ (∀ (env : CopyEnv) (dest_dir pref : String)
        (keyOf : Nat → String → Except String String) (count : Nat)
        (files : List String) (st : CopySt),
      ∀ p ∈ st.written,
        p ∈ (copyFilesLoop env dest_dir pref keyOf count files st).1.written)
    ∧ (∀ (env : CopyEnv) (prep_dir work_dir subj task tplflow_str : String),
      ∀ op ∈ (copy_data env prep_dir work_dir subj task tplflow_str).1.trace,
        ∃ s d, op = FsOp.copyfile s d)
    ∧ (∀ (env : CopyEnv) (prep_dir work_dir subj task tplflow_str h0 : String)
        (hrest : List String) (st1 : CopySt) (e : String),
      env.glob (t1Pat prep_dir subj tplflow_str) = h0 :: hrest →
      (desiredAnat (anatStrOf h0)).length
        = (anatFilesOf env prep_dir subj (anatStrOf h0)).length →
      copyFilesLoop env (work_dir ++ "/" ++ "anat") "anat"
          (anatKeyOf (anatStrOf h0)) 0
          (anatFilesOf env prep_dir subj (anatStrOf h0)) ⟨[], [], []⟩
        = (st1, some e) →
      copy_data env prep_dir work_dir subj task tplflow_str = (st1, some e))
    ∧ (∀ (glob : String → List String) (deriv_dir subj : String),
      glob (deriv_dir ++ "/fmriprep/" ++ subj
          ++ "/**/*desc-preproc_T1w.nii.gz") = [] →
      run_fmriprep_check glob deriv_dir subj
        = .error "fMRIprep failed, check resources.fmriprep.fmriprep.run_fmriprep.") := by
  refine ⟨?_, ?_, ?_, ?_, ?_⟩
  · intro env dest_dir pref keyOf count src rest st key hk hfe
    constructor
    · simp only [copyFilesLoop, hk]
      rw [if_neg (by simp [hfe])]
    · rcases applyCopy_trace env dest_dir pref key st src with h | h <;>
        simp [h]
  · exact fun env dest_dir pref keyOf count files st =>
      copyFilesLoop_written_mono env dest_dir pref keyOf files count st
  · intro env prep_dir work_dir subj task tplflow_str op hop
    unfold copy_data at hop
    split at hop
    · simp at hop
    · rename_i h0 htail hgeq
      dsimp only at hop
      split at hop
      · simp at hop
      · have h1 := copyFilesLoop_trace_inv env (work_dir ++ "/" ++ "anat")
          "anat" (anatKeyOf (anatStrOf h0))
          (anatFilesOf env prep_dir subj (anatStrOf h0)) 0 ⟨[], [], []⟩
          (by simp)
        split at hop
        · rename_i st1 e heq
          rw [heq] at h1
          exact h1 op hop
        · rename_i st1 heq
          rw [heq] at h1
          split at hop
          · exact h1 op hop
          · have h2 := copyFilesLoop_trace_inv env (work_dir ++ "/" ++ "func")
              "func" (countKeyOf "epi-preproc")
              (sortLe strLe (env.glob (prep_dir ++ "/" ++ subj ++ "/**/*"
                ++ task ++ "*" ++ tplflow_str ++ "_desc-preproc_bold.nii.gz")))
              0 st1 h1
            split at hop
            · rename_i st2 e2 heq2
              rw [heq2] at h2
              exact h2 op hop
            · rename_i st2 heq2
              rw [heq2] at h2
              exact copyFilesLoop_trace_inv env (work_dir ++ "/" ++ "func")
                "func" (countKeyOf "mot-confound")
                (sortLe strLe (env.glob (prep_dir ++ "/" ++ subj ++ "/**/*"
                  ++ task ++ "*desc-confounds_timeseries.tsv")))
                0 st2 h2 op hop
  · intro env prep_dir work_dir subj task tplflow_str h0 hrest st1 e hg hlen
      hloop
    unfold copy_data
    rw [hg]
    dsimp only
    rw [if_neg (by omega)]
    rw [hloop]
  · intro glob deriv_dir subj hg
    simp [run_fmriprep_check, hg]

/-- Concrete environment for the C7 witness: the destination neither
pre-exists nor materialises when copied. -/
def c7env : CopyEnv :=
  { glob := fun _ => []
    exists0 := fun _ => false
    copyOk := fun _ _ => false }

theorem copy_error_handling_witness :
    (copyFilesLoop c7env "/afni/sub-1/ses-S1/func" "func"
        (countKeyOf "epi-preproc") 0 ["/prep/sub-1/func/run-1_bold.nii.gz"]
        ⟨[], [], []⟩
      = (applyCopy c7env "/afni/sub-1/ses-S1/func" "func" "epi-preproc1"
          ⟨[], [], []⟩ "/prep/sub-1/func/run-1_bold.nii.gz",
         some ("/afni/sub-1/ses-S1/func"
           ++ "/" ++ lastComponent "/prep/sub-1/func/run-1_bold.nii.gz"
           ++ " failed to copy, check resources.afni.copy."))
      ∧ (applyCopy c7env "/afni/sub-1/ses-S1/func" "func" "epi-preproc1"
          ⟨[], [], []⟩ "/prep/sub-1/func/run-1_bold.nii.gz").trace.length
        ≤ ([] : List FsOp).length + 1)
    ∧ run_fmriprep_check c7env.glob "/proj/derivatives" "sub-1"
        = .error "fMRIprep failed, check resources.fmriprep.fmriprep.run_fmriprep." :=
  ⟨copy_error_handling.1 c7env "/afni/sub-1/ses-S1/func" "func"
      (countKeyOf "epi-preproc") 0 "/prep/sub-1/func/run-1_bold.nii.gz" []
      ⟨[], [], []⟩ "epi-preproc1" rfl (by decide),
   copy_error_handling.2.2.2.2 c7env.glob "/proj/derivatives" "sub-1" rfl⟩

end FuncProc
